import Mathlib

/-!
Shallow embedding of the yt-rss-enhancer core (src/main.rs): the video-metadata
store with dirty-tracking persistence, the yt-dlp based fetcher and short-form
classification, the duration formatter, and the RSS feed transform.

Machine integers of the source (`u64` lengths and dimensions, `i64` epoch
seconds) are modelled as `Nat` and `Int`; none of the arithmetic performed on
them (comparisons, division and remainder by 60) can overflow. The external
world (file I/O, the yt-dlp process, the HTTP fetch of the upstream feed) is
modelled at its interface: persistence produces/consumes a JSON value, the
fetcher is a parameter returning `Except`.
-/

namespace YtRss

/-- Cached metadata for one video (struct `YoutubeVideo`, src/main.rs lines
14-23): timestamp of the information (epoch seconds, via serde ts_seconds),
length in seconds, and the short-form flag. -/
structure YoutubeVideo where
  timestamp : Int
  length : Nat
  is_short : Bool
  deriving DecidableEq, Repr

/-- The persistent state (struct `State`, src/main.rs lines 25-34): a map from
video id to `YoutubeVideo` (the Rust `HashMap` is modelled as an association
list with the same lookup/insert semantics), the serde-skipped `dirty` flag and
the serde-skipped backing file name. -/
structure State where
  youtube_videos : List (String × YoutubeVideo)
  dirty : Bool
  file : String
  deriving DecidableEq, Repr

/-- `HashMap::get` on the association-list model: the value stored at `k`. -/
def hmGet (k : String) : List (String × YoutubeVideo) → Option YoutubeVideo
  | [] => none
  | p :: rest => if p.1 = k then some p.2 else hmGet k rest

/-- `HashMap::insert` on the association-list model: replaces the binding of
`k` when present, appends it otherwise. -/
def hmInsert (k : String) (v : YoutubeVideo) :
    List (String × YoutubeVideo) → List (String × YoutubeVideo)
  | [] => [(k, v)]
  | p :: rest => if p.1 = k then (k, v) :: rest else p :: hmInsert k v rest

/-- JSON values, restricted to the shapes serde produces for `State`:
integers, booleans and string-keyed objects. -/
inductive Json where
  | num (n : Int)
  | bool (b : Bool)
  | obj (fields : List (String × Json))

/-- Field lookup in a JSON object (first binding wins, as serde never emits a
duplicate key for a `HashMap`). -/
def jLookup (k : String) : List (String × Json) → Option Json
  | [] => none
  | p :: rest => if p.1 = k then some p.2 else jLookup k rest

/-- serde serialization of one `YoutubeVideo`: `timestamp` as epoch seconds
(ts_seconds), `length` and `is_short` verbatim. -/
def encodeVideo (v : YoutubeVideo) : Json :=
  .obj [("timestamp", .num v.timestamp), ("length", .num (Int.ofNat v.length)),
        ("is_short", .bool v.is_short)]

/-- serde deserialization of one `YoutubeVideo`; a negative `length` cannot be
a `u64`, so it is rejected, as is any missing or ill-typed field. -/
def decodeVideo (j : Json) : Option YoutubeVideo :=
  match j with
  | .obj fields =>
    match jLookup "timestamp" fields, jLookup "length" fields,
          jLookup "is_short" fields with
    | some (.num t), some (.num (Int.ofNat l)), some (.bool b) =>
      some { timestamp := t, length := l, is_short := b }
    | _, _, _ => none
  | _ => none

/-- serde deserialization of the video map, entry by entry. -/
def decodeVids : List (String × Json) → Option (List (String × YoutubeVideo))
  | [] => some []
  | (k, j) :: rest =>
    match decodeVideo j, decodeVids rest with
    | some v, some l => some ((k, v) :: l)
    | _, _ => none

/-- serde serialization of `State`: only `youtube_videos` is written, `dirty`
and `file` carry `#[serde(skip)]`. -/
def encodeState (st : State) : Json :=
  .obj [("youtube_videos", .obj (st.youtube_videos.map (fun p => (p.1, encodeVideo p.2))))]

/-- serde deserialization of `State`; the skipped fields come back as their
defaults (`dirty = false`, `file = ""`). -/
def decodeState (j : Json) : Option State :=
  match j with
  | .obj fields =>
    match jLookup "youtube_videos" fields with
    | some (.obj vids) =>
      match decodeVids vids with
      | some l => some { youtube_videos := l, dirty := false, file := "" }
      | none => none
    | _ => none
  | _ => none

/-- `load_state` (src/main.rs lines 36-45): if the state file exists, its
content (here an optional JSON value) is parsed, failing on a malformed file;
otherwise the default empty state is used. Either way `state.file` is then set
to the supplied file name. -/
def load_state (fileContent : Option Json) (state_file : String) : Except String State :=
  match fileContent with
  | none => .ok { youtube_videos := [], dirty := false, file := state_file }
  | some j =>
    match decodeState j with
    | none => .error "failed to parse state file"
    | some st => .ok { st with file := state_file }

/-- `store_state` (src/main.rs lines 47-58): under the lock, return at once if
the state is not dirty; otherwise write the serde snapshot of the whole state
to the file. The result pairs the state as it is after the call with the
content written to durable storage (`none` when nothing was written). The
source never resets `dirty` to `false`. -/
def store_state (st : State) : State × Option Json :=
  if !st.dirty then (st, none)
  else (st, some (encodeState st))

/-- `fetch_youtube_video_data` (src/main.rs lines 60-88), after the yt-dlp
JSON has been parsed into `duration`, `width`, `height`: the record built from
it, with `is_short = duration <= 180 && height >= width` and the current time
as timestamp. The process-spawning and parsing failure paths return errors
before this point and produce no record. -/
def fetch_youtube_video_data (now : Int) (duration width height : Nat) : YoutubeVideo :=
  { timestamp := now
    length := duration
    is_short := decide (duration ≤ 180) && decide (height ≥ width) }

/-- `get_youtube_video_data` (src/main.rs lines 90-106): return the cached
record when present; otherwise run the fetcher (a parameter, standing for
`fetch_youtube_video_data` on live data), and on success insert the record and
set the dirty flag. The result carries the state after the call and the number
of fetcher invocations performed. -/
def get_youtube_video_data (fetch : String → Except String YoutubeVideo)
    (st : State) (video_id : String) : Except String YoutubeVideo × State × Nat :=
  match hmGet video_id st.youtube_videos with
  | some video => (.ok video, st, 0)
  | none =>
    match fetch video_id with
    | .error e => (.error e, st, 1)
    | .ok video_data =>
      (.ok video_data,
       { st with youtube_videos := hmInsert video_id video_data st.youtube_videos,
                 dirty := true },
       1)

/-- Zero-padding to two digits, the `{seconds:02}` format of the source (the
padded value is always a remainder mod 60, hence below 100). -/
def padZero2 (n : Nat) : String :=
  if n < 10 then "0" ++ toString n else toString n

/-- `format_duration` (src/main.rs lines 108-116). -/
def format_duration (seconds : Nat) : String :=
  let minutes := seconds / 60
  let seconds := seconds % 60
  if minutes = 0 then toString seconds ++ "s"
  else toString minutes ++ ":" ++ padZero2 seconds ++ "s"

/-- One child element of a feed entry, as the transform observes it through
xmltree: its element name and the result of `get_text()` (`none` when the
element has no text content). -/
structure XmlElem where
  name : String
  text : Option String
  deriving DecidableEq, Repr

/-- A top-level child node of the feed document: an element (an `entry` child
carries the entry's own children) or a text node. -/
inductive XMLNode where
  | element (name : String) (children : List XmlElem)
  | text (s : String)
  deriving DecidableEq, Repr

/-- Whether a document child is an `entry` element (what `take_child("entry")`
matches). -/
def isEntry : XMLNode → Bool
  | .element nm _ => nm == "entry"
  | .text _ => false

/-- The `while let Some(entry) = feed.take_child("entry")` loop of
`handle_youtube_feed` (src/main.rs lines 132-133): removes every `entry`
element, in document order, and keeps the remaining children in their relative
order. Returns (entries taken, children left in the document). -/
def extractEntries : List XMLNode → List (List XmlElem) × List XMLNode
  | [] => ([], [])
  | .element nm cs :: rest =>
    let r := extractEntries rest
    if nm = "entry" then (cs :: r.1, r.2) else (r.1, .element nm cs :: r.2)
  | .text s :: rest =>
    let r := extractEntries rest
    (r.1, .text s :: r.2)

/-- xmltree `get_child(name)`: the first child element with that name. -/
def getChild (n : String) : List XmlElem → Option XmlElem
  | [] => none
  | c :: rest => if c.name = n then some c else getChild n rest

/-- `get_child(name).and_then(|e| e.get_text())`: the text of the first child
with that name, `none` when the child is absent or has no text. -/
def getChildText (n : String) (cs : List XmlElem) : Option String :=
  (getChild n cs).bind (fun c => c.text)

/-- `get_mut_child("title")` followed by `title_elem.children = vec![Text(t)]`
(src/main.rs lines 155-158): replace the text of the first `title` child. -/
def setTitle (newTitle : String) : List XmlElem → List XmlElem
  | [] => []
  | c :: rest =>
    if c.name = "title" then { c with text := some newTitle } :: rest
    else c :: setTitle newTitle rest

/-- The body of the entry loop of `handle_youtube_feed` (src/main.rs lines
134-164) for one entry: extract `videoId` text (absent: error
"videoId element missing"), extract `title` text (absent: the same message,
faithful to the copy-pasted string at line 142), resolve the record through
`get_youtube_video_data`, drop the entry when the record is a short, otherwise
rewrite the first `title` child to "<title> (<formatted duration>)" and remove
every `updated` child (the `while take_child("updated")` loop). Returns the
state after the entry, the number of fetcher invocations, and the transformed
entry (`none` when the entry was dropped as a short). -/
def processEntry (fetch : String → Except String YoutubeVideo) (st : State)
    (cs : List XmlElem) : Except String (State × Nat × Option (List XmlElem)) :=
  match getChildText "videoId" cs with
  | none => .error "videoId element missing"
  | some video_id =>
    match getChildText "title" cs with
    | none => .error "videoId element missing"
    | some title =>
      match get_youtube_video_data fetch st video_id with
      | (.error e, _, _) => .error e
      | (.ok video_data, st2, n) =>
        if video_data.is_short then .ok (st2, n, none)
        else
          match getChild "title" cs with
          | none => .error "title element missing"
          | some _ =>
            .ok (st2, n,
              some ((setTitle (title ++ " (" ++ format_duration video_data.length ++ ")") cs).filter
                (fun c => !(c.name == "updated"))))

/-- The entry loop of `handle_youtube_feed`, over the entries taken out of the
feed in document order: collects the surviving transformed entries (in order),
threads the store state, and counts fetcher invocations; the first failing
entry aborts the whole transform. -/
def transformEntries (fetch : String → Except String YoutubeVideo) :
    State → List (List XmlElem) → Except String (List (List XmlElem) × State × Nat)
  | st, [] => .ok ([], st, 0)
  | st, cs :: rest =>
    match processEntry fetch st cs with
    | .error e => .error e
    | .ok (st2, n, out?) =>
      match transformEntries fetch st2 rest with
      | .error e => .error e
      | .ok (outs, st3, m) =>
        .ok ((match out? with | some o => o :: outs | none => outs), st3, n + m)

/-- The transform part of `handle_youtube_feed` (src/main.rs lines 131-172),
for an already fetched-and-parsed feed: take every `entry` child out, run the
entry loop, append the surviving entries back at the end of the remaining
children (`feed.children.push`), then run `store_state`. Returns the new child
list, the state after the call, and the total number of fetcher invocations.
The surrounding HTTP fetch, XML parse and serialization are outside the model. -/
def handle_youtube_feed (fetch : String → Except String YoutubeVideo) (st : State)
    (children : List XMLNode) : Except String (List XMLNode × State × Nat) :=
  match transformEntries fetch st (extractEntries children).1 with
  | .error e => .error e
  | .ok (outs, st2, n) =>
    .ok ((extractEntries children).2 ++ outs.map (fun cs => XMLNode.element "entry" cs),
         (store_state st2).1, n)

/-- The result of the entry-loop body for one entry when its record is already
cached in `st`: `none` when the entry is dropped as a short, otherwise the
entry with its first `title` child rewritten to "<title> (<duration>)" and all
`updated` children removed. Used to state what the transform produces. -/
def cachedRewrite (st : State) (cs : List XmlElem) : Option (List XmlElem) :=
  match getChildText "videoId" cs, getChildText "title" cs with
  | some vid, some title =>
    match hmGet vid st.youtube_videos with
    | some rec =>
      if rec.is_short then none
      else
        some ((setTitle (title ++ " (" ++ format_duration rec.length ++ ")") cs).filter
          (fun c => !(c.name == "updated")))
    | none => none
  | _, _ => none

/-- `out` is `cs` after the surviving-entry rewrite: its first `title` child
replaced by some new title and every `updated` child removed. Relates source
entries to output entries when stating order preservation. -/
def entryRewrites (cs out : List XmlElem) : Prop :=
  ∃ t, out = (setTitle t cs).filter (fun c => !(c.name == "updated"))

/-! ## Sample data used by concrete witnesses -/

/-- A cached record for a regular (not short) 125-second video. -/
def wB : YoutubeVideo := { timestamp := 100, length := 125, is_short := false }

/-- A cached record classified as a short. -/
def wS : YoutubeVideo := { timestamp := 101, length := 60, is_short := true }

/-- A clean store holding records for the ids idA (short), idB (regular) and
idC (short). -/
def wStore : State :=
  { youtube_videos := [("idA", wS), ("idB", wB), ("idC", wS)]
    dirty := false
    file := "state.json" }

/-- A fetcher double that always fails, the way `fetch_youtube_video_data`
fails when yt-dlp reports a non-zero exit status; every witness below that
uses it thereby also certifies that no fetch was needed on its path. -/
def wFetch : String → Except String YoutubeVideo :=
  fun _ => .error "yt-dlp returned non-zero exit status"

/-- Feed entry for the short idA. -/
def entryA : List XmlElem :=
  [{ name := "videoId", text := some "idA" }, { name := "title", text := some "A" },
   { name := "updated", text := some "u1" }]

/-- Feed entry for the regular video idB. -/
def entryB : List XmlElem :=
  [{ name := "videoId", text := some "idB" }, { name := "title", text := some "B" },
   { name := "updated", text := some "u2" }]

/-- Feed entry for the short idC (no `updated` child). -/
def entryC : List XmlElem :=
  [{ name := "videoId", text := some "idC" }, { name := "title", text := some "C" }]

/-- A feed document: channel-level text, three entries, and a channel-level
`title` element between them. -/
def wFeed : List XMLNode :=
  [.text "chan", .element "entry" entryA, .element "title" [],
   .element "entry" entryB, .element "entry" entryC]

/-- A malformed entry: it has a title but no `videoId` child. -/
def entryNoVid : List XmlElem := [{ name := "title", text := some "T" }]

/-- An entry with a `videoId` child but no `title` child. -/
def entryNoTitle : List XmlElem := [{ name := "videoId", text := some "idB" }]

/-! ## Basic lemmas about the store model -/

/-- Looking up the freshly inserted key returns the inserted value. -/
theorem hmGet_hmInsert_self (k : String) (v : YoutubeVideo) :
    ∀ m : List (String × YoutubeVideo), hmGet k (hmInsert k v m) = some v := by
  intro m
  induction m with
  | nil => simp [hmGet, hmInsert]
  | cons p rest ih =>
    by_cases h : p.1 = k
    · simp [hmGet, hmInsert, h]
    · simp [hmGet, hmInsert, h, ih]

/-- `store_state` returns the in-memory state unchanged in both branches; in
particular it never resets the dirty flag. -/
theorem store_state_fst (st : State) : (store_state st).1 = st := by
  unfold store_state
  by_cases h : st.dirty <;> simp [h]

/-- Decoding the encoding of one video record gives the record back. -/
theorem decodeVideo_encodeVideo (v : YoutubeVideo) :
    decodeVideo (encodeVideo v) = some v := rfl

/-- Decoding the encoding of the video map gives the map back. -/
theorem decodeVids_encode (l : List (String × YoutubeVideo)) :
    decodeVids (l.map (fun p => (p.1, encodeVideo p.2))) = some l := by
  induction l with
  | nil => rfl
  | cons p rest ih => simp [decodeVids, decodeVideo_encodeVideo, ih]

/-- A cached id is served from the store as-is, with no fetcher invocation. -/
theorem get_cached (fetch : String → Except String YoutubeVideo) (st : State)
    (vid : String) (rec : YoutubeVideo)
    (hrec : hmGet vid st.youtube_videos = some rec) :
    get_youtube_video_data fetch st vid = (.ok rec, st, 0) := by
  simp [get_youtube_video_data, hrec]

/-! ## Lemmas about the feed transform -/

/-- The children left in the document after the `take_child("entry")` loop are
exactly the non-entry children, in their original relative order. -/
theorem extractEntries_snd :
    ∀ l : List XMLNode, (extractEntries l).2 = l.filter (fun nd => !isEntry nd) := by
  intro l
  induction l with
  | nil => rfl
  | cons nd rest ih =>
    cases nd with
    | element nm cs =>
      by_cases hnm : nm = "entry"
      · subst hnm; simp [extractEntries, isEntry, ih]
      · simp [extractEntries, isEntry, hnm, ih]
    | text s => simp [extractEntries, isEntry, ih]

/-- Every `entry` element of the document shows up among the extracted
entries. -/
theorem mem_extractEntries_fst {cs : List XmlElem} :
    ∀ {l : List XMLNode}, XMLNode.element "entry" cs ∈ l → cs ∈ (extractEntries l).1 := by
  intro l
  induction l with
  | nil => intro h; cases h
  | cons nd rest ih =>
    intro h
    rcases List.mem_cons.mp h with heq | hmem
    · subst heq; simp [extractEntries]
    · cases nd with
      | element nm cs' =>
        by_cases hnm : nm = "entry" <;> simp [extractEntries, hnm, ih hmem]
      | text s => simpa [extractEntries] using ih hmem

/-- The loop body, on an entry with `videoId` and `title` text whose record is
cached: no failure, no fetch, no state change, and the output entry is given
by `cachedRewrite`. -/
theorem processEntry_cached (fetch : String → Except String YoutubeVideo) (st : State)
    (cs : List XmlElem) (vid title : String) (rec : YoutubeVideo)
    (hvid : getChildText "videoId" cs = some vid)
    (htitle : getChildText "title" cs = some title)
    (hrec : hmGet vid st.youtube_videos = some rec) :
    processEntry fetch st cs = .ok (st, 0, cachedRewrite st cs) := by
  obtain ⟨el, hel⟩ : ∃ el, getChild "title" cs = some el := by
    unfold getChildText at htitle
    cases hgc : getChild "title" cs with
    | none => rw [hgc] at htitle; simp at htitle
    | some el => exact ⟨el, rfl⟩
  simp only [processEntry, cachedRewrite, hvid, htitle, hel, get_cached fetch st vid rec hrec]
  by_cases hs : rec.is_short <;> simp [hs, hrec]

/-- Any successful run of the loop body presupposes that both the `videoId`
and the `title` text were present on the entry. -/
theorem processEntry_ok_fields (fetch : String → Except String YoutubeVideo) (st : State)
    (cs : List XmlElem) (r : State × Nat × Option (List XmlElem))
    (hp : processEntry fetch st cs = .ok r) :
    ∃ vid title, getChildText "videoId" cs = some vid ∧ getChildText "title" cs = some title := by
  rw [processEntry] at hp
  cases hv : getChildText "videoId" cs with
  | none => rw [hv] at hp; simp at hp
  | some vid =>
    rw [hv] at hp
    cases ht : getChildText "title" cs with
    | none => rw [ht] at hp; simp at hp
    | some title => exact ⟨vid, title, rfl, rfl⟩

/-- A successful loop-body run whose output is a surviving entry produced that
entry by rewriting the title and dropping the `updated` children. -/
theorem processEntry_some_shape (fetch : String → Except String YoutubeVideo) (st : State)
    (cs : List XmlElem) (st2 : State) (n : Nat) (o : List XmlElem)
    (hp : processEntry fetch st cs = .ok (st2, n, some o)) :
    entryRewrites cs o := by
  unfold processEntry at hp
  repeat' split at hp
  all_goals cases hp
  exact ⟨_, rfl⟩

/-- When the record of every id mentioned by the entry is cached, a successful
loop-body run changes no state and performs no fetch. -/
theorem processEntry_ok_cached (fetch : String → Except String YoutubeVideo) (st : State)
    (cs : List XmlElem) (st2 : State) (k : Nat) (o? : Option (List XmlElem))
    (hc : ∀ vid, getChildText "videoId" cs = some vid →
      ∃ rec, hmGet vid st.youtube_videos = some rec)
    (hp : processEntry fetch st cs = .ok (st2, k, o?)) :
    st2 = st ∧ k = 0 := by
  obtain ⟨vid, title, hvid, htitle⟩ := processEntry_ok_fields fetch st cs _ hp
  obtain ⟨rec, hrec⟩ := hc vid hvid
  rw [processEntry_cached fetch st cs vid title rec hvid htitle hrec] at hp
  simp only [Except.ok.injEq, Prod.mk.injEq] at hp
  exact ⟨hp.1.symm, hp.2.1.symm⟩

/-- A feed containing an entry without `videoId` text makes the entry loop
fail. -/
theorem transformEntries_error_of_bad (fetch : String → Except String YoutubeVideo) :
    ∀ (entries : List (List XmlElem)) (st : State),
      (∃ cs ∈ entries, getChildText "videoId" cs = none) →
      ∃ e, transformEntries fetch st entries = .error e := by
  intro entries
  induction entries with
  | nil => rintro st ⟨cs, hmem, _⟩; cases hmem
  | cons c rest ih =>
    rintro st ⟨cs, hmem, hbad⟩
    rcases List.mem_cons.mp hmem with heq | hmem'
    · subst heq
      exact ⟨"videoId element missing", by simp [transformEntries, processEntry, hbad]⟩
    · cases hp : processEntry fetch st c with
      | error e => exact ⟨e, by simp [transformEntries, hp]⟩
      | ok r =>
        obtain ⟨st2, n, o?⟩ := r
        obtain ⟨e, he⟩ := ih st2 ⟨cs, hmem', hbad⟩
        exact ⟨e, by simp [transformEntries, hp, he]⟩

/-- Any successful entry-loop run pairs a sublist of the source entries, in
source order, with the produced entries, each produced by the surviving-entry
rewrite. -/
theorem transformEntries_shape (fetch : String → Except String YoutubeVideo) :
    ∀ (entries : List (List XmlElem)) (st : State) (outs : List (List XmlElem))
      (st2 : State) (n : Nat),
      transformEntries fetch st entries = .ok (outs, st2, n) →
      ∃ src, List.Sublist src entries ∧ List.Forall₂ entryRewrites src outs := by
  intro entries
  induction entries with
  | nil =>
    intro st outs st2 n h
    simp only [transformEntries, Except.ok.injEq, Prod.mk.injEq] at h
    exact ⟨[], List.Sublist.refl _, h.1 ▸ List.Forall₂.nil⟩
  | cons cs rest ih =>
    intro st outs st2 n h
    cases hp : processEntry fetch st cs with
    | error e => simp only [transformEntries, hp] at h; exact absurd h (by simp)
    | ok r =>
      obtain ⟨st', n', o?⟩ := r
      simp only [transformEntries, hp] at h
      cases ht : transformEntries fetch st' rest with
      | error e => rw [ht] at h; exact absurd h (by simp)
      | ok r2 =>
        obtain ⟨outs', st3, m⟩ := r2
        rw [ht] at h
        obtain ⟨src, hsub, hfa⟩ := ih st' outs' st3 m ht
        cases o? with
        | none =>
          simp only [Except.ok.injEq, Prod.mk.injEq] at h
          exact ⟨src, hsub.cons _, h.1 ▸ hfa⟩
        | some o =>
          simp only [Except.ok.injEq, Prod.mk.injEq] at h
          exact ⟨cs :: src, hsub.cons₂ _,
            h.1 ▸ List.Forall₂.cons (processEntry_some_shape fetch st cs st' n' o hp) hfa⟩

/-- When the record of every id mentioned by some entry is cached, a
successful entry-loop run leaves the state unchanged and performs zero
fetches. -/
theorem transformEntries_cached_ids (fetch : String → Except String YoutubeVideo) :
    ∀ (entries : List (List XmlElem)) (st : State) (outs : List (List XmlElem))
      (st2 : State) (n : Nat),
      (∀ cs ∈ entries, ∀ vid, getChildText "videoId" cs = some vid →
        ∃ rec, hmGet vid st.youtube_videos = some rec) →
      transformEntries fetch st entries = .ok (outs, st2, n) →
      st2 = st ∧ n = 0 := by
  intro entries
  induction entries with
  | nil =>
    intro st outs st2 n _ h
    simp only [transformEntries, Except.ok.injEq, Prod.mk.injEq] at h
    exact ⟨h.2.1.symm, h.2.2.symm⟩
  | cons cs rest ih =>
    intro st outs st2 n hc h
    cases hp : processEntry fetch st cs with
    | error e => simp only [transformEntries, hp] at h; exact absurd h (by simp)
    | ok r =>
      obtain ⟨st', k, o?⟩ := r
      obtain ⟨hst, hk⟩ :=
        processEntry_ok_cached fetch st cs st' k o? (hc cs (List.mem_cons_self ..)) hp
      subst hst
      simp only [transformEntries, hp] at h
      cases ht : transformEntries fetch st' rest with
      | error e => rw [ht] at h; exact absurd h (by simp)
      | ok r2 =>
        obtain ⟨outs', st3, m⟩ := r2
        rw [ht] at h
        obtain ⟨hst3, hm⟩ :=
          ih st' outs' st3 m (fun c hcm => hc c (List.mem_cons_of_mem _ hcm)) ht
        simp only [Except.ok.injEq, Prod.mk.injEq] at h
        refine ⟨?_, ?_⟩
        · rw [← h.2.1, hst3]
        · have hn := h.2.2
          omega


/-- C1 (code bug, evaluated at the failing input): on a concrete dirty store,
`store_state` does write the complete snapshot to durable storage, but the
dirty flag is still set afterwards — the source never clears it, so the claim
"on success, clears the dirty flag" fails; the no-write half of the claim, for
a store whose dirty flag is clear, does hold. -/
theorem store_state_writes_but_never_clears_dirty :
    (store_state { youtube_videos := [("idB", wB)], dirty := true, file := "state.json" }).2
      = some (encodeState { youtube_videos := [("idB", wB)], dirty := true, file := "state.json" })
    ∧ (store_state { youtube_videos := [("idB", wB)], dirty := true, file := "state.json" }).1.dirty
        = true
    ∧ (store_state { youtube_videos := [("idB", wB)], dirty := false, file := "state.json" }).2
        = none :=
  ⟨rfl, rfl, rfl⟩

/-- C2: the fetched record's `is_short` flag is true exactly when the duration
is at most 180 seconds and the height is at least the width; the three sample
classifications of the spec hold. -/
theorem is_short_classification :
    (∀ (now : Int) (duration width height : Nat),
      ((fetch_youtube_video_data now duration width height).is_short = true
        ↔ duration ≤ 180 ∧ height ≥ width))
    ∧ (fetch_youtube_video_data 0 120 9 16).is_short = true
    ∧ (fetch_youtube_video_data 0 200 9 16).is_short = false
    ∧ (fetch_youtube_video_data 0 120 16 9).is_short = false := by
  refine ⟨fun now duration width height => ?_, by decide, by decide, by decide⟩
  simp [fetch_youtube_video_data]

/-- C3: the duration formatter produces `"<s>s"` below one minute and
`"<s / 60>:<s % 60, two-digit zero-padded>s"` otherwise, and the four sample
values of the spec format as stated. -/
theorem format_duration_spec :
    (∀ s : Nat, format_duration s =
      if s < 60 then toString s ++ "s"
      else toString (s / 60) ++ ":" ++ padZero2 (s % 60) ++ "s")
    ∧ format_duration 0 = "0s" ∧ format_duration 59 = "59s"
    ∧ format_duration 60 = "1:00s" ∧ format_duration 125 = "2:05s" := by
  refine ⟨fun s => ?_, by decide, by decide, by decide, by decide⟩
  simp only [format_duration]
  by_cases h : s < 60
  · have h0 : s / 60 = 0 := Nat.div_eq_of_lt h
    have h1 : s % 60 = s := Nat.mod_eq_of_lt h
    rw [if_pos h, if_pos h0, h1]
  · have h0 : ¬ s / 60 = 0 := by omega
    rw [if_neg h, if_neg h0]

/-- C4: `get_youtube_video_data` returns a cached record without touching the
fetcher or the store; on a miss it invokes the fetcher exactly once and, on
fetch success, inserts the record under the id (so a subsequent lookup finds
it), sets the dirty flag and returns the record, while on fetch failure the
error propagates with the state unchanged. -/
theorem get_youtube_video_data_spec (fetch : String → Except String YoutubeVideo)
    (st : State) (vid : String) :
    (∀ v, hmGet vid st.youtube_videos = some v →
      get_youtube_video_data fetch st vid = (.ok v, st, 0))
    ∧ (hmGet vid st.youtube_videos = none →
        (∀ v, fetch vid = .ok v →
          get_youtube_video_data fetch st vid =
            (.ok v,
             { st with youtube_videos := hmInsert vid v st.youtube_videos, dirty := true },
             1)
          ∧ hmGet vid (hmInsert vid v st.youtube_videos) = some v)
        ∧ ∀ e, fetch vid = .error e →
            get_youtube_video_data fetch st vid = (.error e, st, 1)) := by
  refine ⟨fun v hv => ?_, fun hm => ⟨fun v hf => ⟨?_, hmGet_hmInsert_self ..⟩, fun e hf => ?_⟩⟩ <;>
    simp [get_youtube_video_data, *]

/-- Witness for C4: in the sample store, idB is served from the cache with
zero fetcher invocations, and a miss on an unknown id propagates the fetcher's
error with the store unchanged after exactly one invocation. -/
theorem get_youtube_video_data_spec_witness :
    get_youtube_video_data wFetch wStore "idB" = (.ok wB, wStore, 0)
    ∧ get_youtube_video_data wFetch wStore "idZ"
        = (.error "yt-dlp returned non-zero exit status", wStore, 1) :=
  ⟨(get_youtube_video_data_spec wFetch wStore "idB").1 wB rfl,
   ((get_youtube_video_data_spec wFetch wStore "idZ").2 rfl).2
     "yt-dlp returned non-zero exit status" rfl⟩

/-- C9: persisting a dirty store holding arbitrary records and loading a store
back from the written snapshot reconstructs exactly the original record set
(and the loaded store starts clean, pointing at the file it was loaded from). -/
theorem persist_load_roundtrip (recs : List (String × YoutubeVideo)) (f g : String) :
    load_state (store_state { youtube_videos := recs, dirty := true, file := f }).2 g
      = .ok { youtube_videos := recs, dirty := false, file := g } := by
  simp [store_state, load_state, encodeState, decodeState, jLookup, decodeVids_encode]

/-! ## Claims C5-C8 and C10 -/

/-- C5: a feed containing an entry without its `videoId` text makes the whole
transform abort with an error — no output document is produced, no matter how
many well-formed entries precede or follow the bad one. -/
theorem transform_fail_fast_on_missing_videoId
    (fetch : String → Except String YoutubeVideo) (st : State) (children : List XMLNode)
    (h : ∃ cs, XMLNode.element "entry" cs ∈ children ∧ getChildText "videoId" cs = none) :
    ∃ e, handle_youtube_feed fetch st children = .error e := by
  obtain ⟨cs, hmem, hbad⟩ := h
  obtain ⟨e, he⟩ := transformEntries_error_of_bad fetch (extractEntries children).1 st
    ⟨cs, mem_extractEntries_fst hmem, hbad⟩
  exact ⟨e, by simp [handle_youtube_feed, he]⟩

/-- Witness for C5: a feed with a well-formed entry followed by an entry that
has no `videoId` child aborts with an error. -/
theorem transform_fail_fast_on_missing_videoId_witness :
    ∃ e, handle_youtube_feed wFetch wStore
      [XMLNode.element "entry" entryB, XMLNode.element "entry" entryNoVid] = .error e :=
  transform_fail_fast_on_missing_videoId wFetch wStore
    [XMLNode.element "entry" entryB, XMLNode.element "entry" entryNoVid]
    ⟨entryNoVid, by decide, rfl⟩

/-- C6: on entries whose `videoId` and `title` text are present and whose
records the store resolves, the entry loop succeeds with the state untouched
and zero fetches, and produces exactly the non-short entries, each with its
title rewritten to "<original title> (<formatted duration>)" and every
`updated` child removed (the content of `cachedRewrite`). -/
theorem transform_filters_shorts_and_rewrites
    (fetch : String → Except String YoutubeVideo) (st : State) :
    ∀ entries : List (List XmlElem),
      (∀ cs ∈ entries, ∃ vid title rec,
        getChildText "videoId" cs = some vid ∧ getChildText "title" cs = some title ∧
        hmGet vid st.youtube_videos = some rec) →
      transformEntries fetch st entries = .ok (entries.filterMap (cachedRewrite st), st, 0) := by
  intro entries
  induction entries with
  | nil => intro _; rfl
  | cons cs rest ih =>
    intro h
    obtain ⟨vid, title, rec, hvid, htitle, hrec⟩ := h cs (List.mem_cons_self ..)
    have hrest := ih (fun c hc => h c (List.mem_cons_of_mem _ hc))
    simp only [transformEntries, processEntry_cached fetch st cs vid title rec hvid htitle hrec,
      hrest, List.filterMap_cons]
    cases hcr : cachedRewrite st cs <;> simp [hcr]

/-- Witness for C6: of the three sample entries (short, regular, short) only
the regular one survives; its title gains the formatted duration and its
`updated` child is gone, while the store is untouched and nothing is fetched. -/
theorem transform_filters_shorts_and_rewrites_witness :
    transformEntries wFetch wStore [entryA, entryB, entryC] =
      .ok ([[{ name := "videoId", text := some "idB" },
             { name := "title", text := some "B (2:05s)" }]], wStore, 0) := by
  have h : ∀ cs ∈ [entryA, entryB, entryC], ∃ vid title rec,
      getChildText "videoId" cs = some vid ∧ getChildText "title" cs = some title ∧
      hmGet vid wStore.youtube_videos = some rec := by
    intro cs hcs
    rcases List.mem_cons.mp hcs with rfl | hcs
    · exact ⟨"idA", "A", wS, rfl, rfl, rfl⟩
    rcases List.mem_cons.mp hcs with rfl | hcs
    · exact ⟨"idB", "B", wB, rfl, rfl, rfl⟩
    rcases List.mem_cons.mp hcs with rfl | hcs
    · exact ⟨"idC", "C", wS, rfl, rfl, rfl⟩
    · cases hcs
  rw [transform_filters_shorts_and_rewrites wFetch wStore [entryA, entryB, entryC] h]
  rfl

/-- C7: whenever the transform succeeds, the output children are the source
document's non-entry children, unchanged and in order, followed by the
surviving entries as one contiguous block at the end; the survivors correspond,
via the title-rewrite-and-updated-removal relation, to a sublist of the source
entries taken in source order. -/
theorem transform_preserves_order_and_nonentry_content
    (fetch : String → Except String YoutubeVideo) (st : State)
    (children : List XMLNode) (out : List XMLNode) (st2 : State) (n : Nat)
    (h : handle_youtube_feed fetch st children = .ok (out, st2, n)) :
    ∃ survivors src,
      out = children.filter (fun nd => !isEntry nd)
              ++ survivors.map (fun cs => XMLNode.element "entry" cs)
      ∧ List.Sublist src (extractEntries children).1
      ∧ List.Forall₂ entryRewrites src survivors := by
  cases ht : transformEntries fetch st (extractEntries children).1 with
  | error e => simp only [handle_youtube_feed, ht] at h; exact absurd h (by simp)
  | ok r =>
    obtain ⟨outs, st3, m⟩ := r
    simp only [handle_youtube_feed, ht, Except.ok.injEq, Prod.mk.injEq] at h
    obtain ⟨src, hsub, hfa⟩ := transformEntries_shape fetch (extractEntries children).1
      st outs st3 m ht
    exact ⟨outs, src, by rw [← h.1, extractEntries_snd], hsub, hfa⟩

/-- Witness for C7: the successful transform of the sample feed, applied to
the concrete output computed from it. -/
theorem transform_preserves_order_and_nonentry_content_witness :
    ∃ survivors src,
      ([XMLNode.text "chan", XMLNode.element "title" [],
        XMLNode.element "entry" [{ name := "videoId", text := some "idB" },
                                 { name := "title", text := some "B (2:05s)" }]] : List XMLNode)
        = wFeed.filter (fun nd => !isEntry nd)
            ++ survivors.map (fun cs => XMLNode.element "entry" cs)
      ∧ List.Sublist src (extractEntries wFeed).1
      ∧ List.Forall₂ entryRewrites src survivors :=
  transform_preserves_order_and_nonentry_content wFetch wStore wFeed _ wStore 0 rfl

/-- C8: when the store already resolves every entry's video id, a successful
transform performs zero fetches and leaves the store state unchanged, so
running the same transform again yields the identical output document with
zero fetches on the second run as well. -/
theorem transform_idempotent_on_cached_store (fetch : String → Except String YoutubeVideo)
    (st : State) (children : List XMLNode) (out : List XMLNode) (st1 : State) (n : Nat)
    (hc : ∀ cs ∈ (extractEntries children).1, ∀ vid,
      getChildText "videoId" cs = some vid → ∃ rec, hmGet vid st.youtube_videos = some rec)
    (h1 : handle_youtube_feed fetch st children = .ok (out, st1, n)) :
    n = 0 ∧ st1 = st ∧ handle_youtube_feed fetch st1 children = .ok (out, st1, 0) := by
  cases ht : transformEntries fetch st (extractEntries children).1 with
  | error e => simp only [handle_youtube_feed, ht] at h1; exact absurd h1 (by simp)
  | ok r =>
    obtain ⟨outs, st3, m⟩ := r
    obtain ⟨hst3, hm⟩ := transformEntries_cached_ids fetch (extractEntries children).1
      st outs st3 m hc ht
    simp only [handle_youtube_feed, ht, store_state_fst, Except.ok.injEq, Prod.mk.injEq] at h1
    obtain ⟨ho, hs1, hn⟩ := h1
    refine ⟨by omega, by rw [← hs1, hst3], ?_⟩
    rw [← hs1, hst3]
    simp only [handle_youtube_feed, ht, store_state_fst, ho, hst3, hm]

/-- Witness for C8: the sample store resolves all three sample entries, the
first run produces the concrete output with zero fetches, and the conclusion
certifies the second run returns the same output with zero fetches. -/
theorem transform_idempotent_on_cached_store_witness :
    (0 = 0) ∧ wStore = wStore ∧ handle_youtube_feed wFetch wStore wFeed =
      .ok ([XMLNode.text "chan", XMLNode.element "title" [],
        XMLNode.element "entry" [{ name := "videoId", text := some "idB" },
                                 { name := "title", text := some "B (2:05s)" }]], wStore, 0) :=
  transform_idempotent_on_cached_store wFetch wStore wFeed _ wStore 0
    (by
      intro cs hcs vid hvid
      have hfst : (extractEntries wFeed).1 = [entryA, entryB, entryC] := rfl
      rw [hfst] at hcs
      rcases List.mem_cons.mp hcs with rfl | hcs
      · injection hvid with hv; subst hv; exact ⟨wS, rfl⟩
      rcases List.mem_cons.mp hcs with rfl | hcs
      · injection hvid with hv; subst hv; exact ⟨wB, rfl⟩
      rcases List.mem_cons.mp hcs with rfl | hcs
      · injection hvid with hv; subst hv; exact ⟨wS, rfl⟩
      · cases hcs)
    rfl

/-- C10: an entry that has `videoId` text but no `title` text (absent child or
no text content) aborts the transform with the error message
"videoId element missing" — the message names the videoId field even though
the title is what is missing, faithful to the copy-pasted string in the
source. -/
theorem missing_title_reports_videoId_message
    (fetch : String → Except String YoutubeVideo) (st : State) (cs : List XmlElem)
    (feedRest : List XMLNode) (vid : String)
    (h1 : getChildText "videoId" cs = some vid)
    (h2 : getChildText "title" cs = none) :
    handle_youtube_feed fetch st (XMLNode.element "entry" cs :: feedRest)
      = .error "videoId element missing" := by
  simp [handle_youtube_feed, extractEntries, transformEntries, processEntry, h1, h2]

/-- Witness for C10: a concrete entry carrying only a `videoId` child makes
the transform fail with the videoId-naming message. -/
theorem missing_title_reports_videoId_message_witness :
    handle_youtube_feed wFetch wStore [XMLNode.element "entry" entryNoTitle]
      = .error "videoId element missing" :=
  missing_title_reports_videoId_message wFetch wStore entryNoTitle [] "idB" rfl rfl

end YtRss
